import Mathlib

/-!
Verification development for the YouTube-transcript fetch service
(`youtube_transcripts.py`).  The Python source is shallowly embedded:
strings become `List Char`, the process-wide transcript cache becomes an
association list threaded explicitly, `time.time()` becomes an explicit
natural-number clock, and the third-party `youtube_transcript_api`
library becomes an explicit upstream oracle (`Upstream`).  Exception
control flow is embedded as `Except` plumbing that mirrors the source's
`try`/`except` nesting exactly — in particular the outer
`except Exception` clause of the `/transcript/` handler, which also
catches `HTTPException` values raised inside the `try` block.
-/

namespace YTA

/-- Character strings of the Python source, embedded as lists of chars. -/
abbrev Str := List Char

/-- `CACHE_DURATION = 3600` (seconds), from the source. -/
def CACHE_DURATION : Nat := 3600

/-- `RETRY_DELAY = 2` (seconds), from the source. -/
def RETRY_DELAY : Nat := 2

/-- The character class `[0-9A-Za-z_-]` used by both regexes of the source. -/
def isAllowedChar (c : Char) : Bool :=
  c.isAlphanum || c == '_' || c == '-'

/-- Consume exactly `n` characters of the class `[0-9A-Za-z_-]` from the
front of `s`, returning the consumed characters and the remainder; `none`
if fewer than `n` class characters are available.  This is the semantics
of the regex fragment `[0-9A-Za-z_-]{n}`. -/
def takeClass : Nat → List Char → Option (List Char × List Char)
  | 0, s => some ([], s)
  | _ + 1, [] => none
  | n + 1, c :: rest =>
      if isAllowedChar c then
        match takeClass n rest with
        | some (g, r) => some (c :: g, r)
        | none => none
      else none

/-- Python's `$` anchor: matches at the end of the string, or just before
a single newline at the end of the string. -/
def endAnchor (rest : List Char) : Bool :=
  rest == [] || rest == ['\n']

/-- `validate_video_id`: `bool(re.match(r"^[0-9A-Za-z_-]{11}$", s))`. -/
def validate_video_id (s : Str) : Bool :=
  match takeClass 11 s with
  | some (_, rest) => endAnchor rest
  | none => false

/-- Does `pat` occur at the front of `s`? -/
def listStartsWith : List Char → List Char → Bool
  | [], _ => true
  | _ :: _, [] => false
  | p :: ps, c :: cs => p == c && listStartsWith ps cs

/-- The `"&t=" in s` / `s.split("&t=")[0]` step of `extract_video_id`:
the prefix of `s` before the first occurrence of `"&t="` (all of `s` when
the marker does not occur). -/
def stripTimestamp : List Char → List Char
  | [] => []
  | c :: rest =>
      if listStartsWith ['&', 't', '='] (c :: rest) then []
      else c :: stripTimestamp rest

/-- One anchoring position of `re.search(r"(?:v=|/)([0-9A-Za-z_-]{11}).*", s)`:
try the alternation `v=` then `/` at this position, then the capture group
of 11 class characters (the trailing `.*` always succeeds). -/
def matchAt1 (s : List Char) : Option (List Char) :=
  match s with
  | c1 :: c2 :: rest =>
      if c1 = 'v' ∧ c2 = '=' then (takeClass 11 rest).map (fun p => p.1)
      else if c1 = '/' then (takeClass 11 (c2 :: rest)).map (fun p => p.1)
      else none
  | [c1] =>
      if c1 = '/' then (takeClass 11 ([] : List Char)).map (fun p => p.1)
      else none
  | [] => none

/-- `re.search` of the first pattern: scan positions left to right and
return the capture group of the leftmost match. -/
def searchPat1 : List Char → Option (List Char)
  | [] => none
  | c :: rest =>
      match matchAt1 (c :: rest) with
      | some g => some g
      | none => searchPat1 rest

/-- `re.search(r"^([0-9A-Za-z_-]{11})$", s)`: anchored at the start, 11
class characters, then the `$` anchor. -/
def matchPat2 (s : List Char) : Option (List Char) :=
  match takeClass 11 s with
  | some (g, rest) => if endAnchor rest then some g else none
  | none => none

/-- `extract_video_id`: strip a trailing `&t=...` fragment, then try the
two regex patterns in order, returning the capture of the first that
matches, and the (stripped) input unchanged otherwise. -/
def extract_video_id (s : Str) : Str :=
  let s1 := stripTimestamp s
  match searchPat1 s1 with
  | some g => g
  | none =>
      match matchPat2 s1 with
      | some g => g
      | none => s1

theorem takeClass_sound (n : Nat) (s g r : List Char)
    (h : takeClass n s = some (g, r)) :
    s = g ++ r ∧ g.length = n ∧ ∀ ch ∈ g, isAllowedChar ch = true := by
  induction n generalizing s g with
  | zero =>
      simp [takeClass] at h
      obtain ⟨hg, hr⟩ := h
      subst hg; subst hr
      simp
  | succ m ih =>
      cases s with
      | nil => simp [takeClass] at h
      | cons c rest =>
          by_cases hc : isAllowedChar c = true
          · rw [takeClass, if_pos hc] at h
            rcases ht : takeClass m rest with _ | ⟨g', r'⟩
            · rw [ht] at h; simp at h
            · rw [ht] at h
              simp at h
              obtain ⟨hg, hr⟩ := h
              subst hg; subst hr
              obtain ⟨he, hl, hall⟩ := ih rest g' ht
              refine ⟨by simp [he], by simp [hl], ?_⟩
              intro ch hch
              rcases List.mem_cons.mp hch with h1 | h2
              · subst h1; exact hc
              · exact hall ch h2
          · rw [takeClass, if_neg hc] at h
            simp at h

theorem takeClass_complete (s t : List Char)
    (hall : ∀ ch ∈ s, isAllowedChar ch = true) :
    takeClass s.length (s ++ t) = some (s, t) := by
  induction s with
  | nil => simp [takeClass]
  | cons c rest ih =>
      have hc : isAllowedChar c = true := hall c (List.mem_cons_self c rest)
      have hrest : ∀ ch ∈ rest, isAllowedChar ch = true :=
        fun ch hm => hall ch (List.mem_cons_of_mem c hm)
      simp [takeClass, hc, ih hrest]

/-- Characterization of the `validate_video_id` regex, including the
Python `$`-before-trailing-newline behaviour. -/
theorem validate_iff (x : Str) :
    validate_video_id x = true ↔
      ((x.length = 11 ∧ ∀ ch ∈ x, isAllowedChar ch = true) ∨
       (∃ y, x = y ++ ['\n'] ∧ y.length = 11 ∧ ∀ ch ∈ y, isAllowedChar ch = true)) := by
  constructor
  · intro hv
    rcases ht : takeClass 11 x with _ | ⟨g, rest⟩
    · rw [validate_video_id, ht] at hv; simp at hv
    · rw [validate_video_id, ht] at hv
      have hrest : rest = [] ∨ rest = ['\n'] := by
        simp [endAnchor] at hv
        exact hv
      obtain ⟨he, hl, hall⟩ := takeClass_sound 11 x g rest ht
      rcases hrest with h0 | h1
      · left
        subst h0
        simp at he
        subst he
        exact ⟨hl, hall⟩
      · right
        subst h1
        exact ⟨g, he, hl, hall⟩
  · intro hv
    rcases hv with ⟨hl, hall⟩ | ⟨y, hxy, hyl, hyall⟩
    · have := takeClass_complete x [] hall
      rw [hl] at this
      simp at this
      rw [validate_video_id, this]
      rfl
    · have := takeClass_complete y ['\n'] hyall
      rw [hyl] at this
      subst hxy
      rw [validate_video_id, this]
      rfl

theorem allowed_ne_amp {ch : Char} (h : isAllowedChar ch = true) : ch ≠ '&' := by
  intro he; subst he; exact absurd h (by decide)

theorem allowed_ne_eq {ch : Char} (h : isAllowedChar ch = true) : ch ≠ '=' := by
  intro he; subst he; exact absurd h (by decide)

theorem allowed_ne_slash {ch : Char} (h : isAllowedChar ch = true) : ch ≠ '/' := by
  intro he; subst he; exact absurd h (by decide)

theorem strip_no_amp (s : List Char) (h : ∀ ch ∈ s, ch ≠ '&') :
    stripTimestamp s = s := by
  induction s with
  | nil => rfl
  | cons c rest ih =>
      have hc : c ≠ '&' := h c (List.mem_cons_self c rest)
      have hrest : ∀ ch ∈ rest, ch ≠ '&' :=
        fun ch hm => h ch (List.mem_cons_of_mem c hm)
      have hb : ('&' == c) = false := beq_eq_false_iff_ne.mpr (Ne.symm hc)
      simp [stripTimestamp, listStartsWith, hb, ih hrest]

theorem matchAt1_none (s : List Char) (h : ∀ ch ∈ s, ch ≠ '=' ∧ ch ≠ '/') :
    matchAt1 s = none := by
  match s with
  | [] => rfl
  | [c1] =>
      have h1 : c1 ≠ '/' := (h c1 (by simp)).2
      simp [matchAt1, h1]
  | c1 :: c2 :: rest =>
      have h1 : c1 ≠ '/' := (h c1 (by simp)).2
      have h2 : c2 ≠ '=' := (h c2 (by simp)).1
      simp [matchAt1, h1, h2]

theorem searchPat1_none (s : List Char) (h : ∀ ch ∈ s, ch ≠ '=' ∧ ch ≠ '/') :
    searchPat1 s = none := by
  induction s with
  | nil => rfl
  | cons c rest ih =>
      have hrest : ∀ ch ∈ rest, ch ≠ '=' ∧ ch ≠ '/' :=
        fun ch hm => h ch (List.mem_cons_of_mem c hm)
      rw [searchPat1, matchAt1_none (c :: rest) h]
      exact ih hrest

/-- On an identifier that is exactly 11 class characters, both the strip
step and the two regex patterns leave `extract_video_id` returning the
input itself. -/
theorem extract_of_pure (g : Str) (hlen : g.length = 11)
    (hall : ∀ ch ∈ g, isAllowedChar ch = true) :
    extract_video_id g = g := by
  have hstrip : stripTimestamp g = g :=
    strip_no_amp g (fun ch hm => allowed_ne_amp (hall ch hm))
  have hs1 : searchPat1 g = none :=
    searchPat1_none g
      (fun ch hm => ⟨allowed_ne_eq (hall ch hm), allowed_ne_slash (hall ch hm)⟩)
  have htake : takeClass 11 g = some (g, []) := by
    have := takeClass_complete g [] hall
    rw [hlen] at this
    simpa using this
  have hp2 : matchPat2 g = some g := by
    rw [matchPat2, htake]
    rfl
  rw [extract_video_id]
  simp only [hstrip, hs1, hp2]

/-- On an identifier that is 11 class characters followed by a trailing
newline (which `validate_video_id` also accepts), `extract_video_id`
returns the 11 class characters. -/
theorem extract_of_newline (y : Str) (hlen : y.length = 11)
    (hall : ∀ ch ∈ y, isAllowedChar ch = true) :
    extract_video_id (y ++ ['\n']) = y := by
  have hne : ∀ ch ∈ y ++ ['\n'], ch ≠ '&' ∧ ch ≠ '=' ∧ ch ≠ '/' := by
    intro ch hm
    rcases List.mem_append.mp hm with hy | hn
    · exact ⟨allowed_ne_amp (hall ch hy), allowed_ne_eq (hall ch hy),
        allowed_ne_slash (hall ch hy)⟩
    · simp at hn
      subst hn
      refine ⟨by decide, by decide, by decide⟩
  have hstrip : stripTimestamp (y ++ ['\n']) = y ++ ['\n'] :=
    strip_no_amp _ (fun ch hm => (hne ch hm).1)
  have hs1 : searchPat1 (y ++ ['\n']) = none :=
    searchPat1_none _ (fun ch hm => ⟨(hne ch hm).2.1, (hne ch hm).2.2⟩)
  have htake : takeClass 11 (y ++ ['\n']) = some (y, ['\n']) := by
    have := takeClass_complete y ['\n'] hall
    rw [hlen] at this
    exact this
  have hp2 : matchPat2 (y ++ ['\n']) = some y := by
    rw [matchPat2, htake]
    rfl
  rw [extract_video_id]
  simp only [hstrip, hs1, hp2]

/-- One transcript segment `{text, start, duration}`.  The source carries
`start`/`duration` as floats; no claim computes on them, so they are
embedded as integers. -/
structure TranscriptSegment where
  text : Str
  start : Int
  duration : Int
deriving DecidableEq

/-- A transcript payload: the ordered list of segments returned upstream. -/
abbrev Transcript := List TranscriptSegment

/-- One caption-track entry of the upstream catalog, with its display name
(`transcript.language`) and its code (`transcript.language_code`). -/
structure TranscriptTrack where
  language : Str
  language_code : Str
deriving DecidableEq

/-- The upstream catalog (`transcript_list`): the ordered values of
`_manually_created_transcripts` and `_generated_transcripts`. -/
structure Catalog where
  manual : List TranscriptTrack
  generated : List TranscriptTrack
deriving DecidableEq

/-- The Python exception values flowing through the handler: the library
exceptions named by the source's `except` clauses, FastAPI
`HTTPException` values (which subclass `Exception` and are therefore
caught by the blanket `except Exception` clauses), and a catch-all for any
other exception. -/
inductive PyErr where
  | NoTranscriptFound
  | TooManyRequests
  | VideoUnavailable
  | TranscriptsDisabled
  | HTTPExc (status : Nat) (detail : Str)
  | Other (msg : Str)
deriving DecidableEq

/-- Modelled from the spec: `str(e)` for the exceptions of the external
`youtube_transcript_api` library is opaque to the core (no claim inspects
it); for `HTTPException`, Starlette renders `"{status_code}: {detail}"`. -/
def pyStr : PyErr → Str
  | .NoTranscriptFound => ("no transcripts were found").data
  | .TooManyRequests => ("too many requests have been sent").data
  | .VideoUnavailable => ("the video is no longer available").data
  | .TranscriptsDisabled => ("subtitles are disabled for this video").data
  | .HTTPExc status detail => (Nat.repr status).data ++ (": ").data ++ detail
  | .Other msg => msg

/-- The process-wide `transcript_cache` dict, keyed by the string
`f"{video_id}_{language}"` and storing `{"transcript": ..., "timestamp": ...}`.
Embedded as an association list threaded through the handler; lookup sees
the most recent insertion for a key, matching dict semantics. -/
abbrev Cache := List (Str × (Transcript × Nat))

/-- `f"{video_id}_{language}"`. -/
def cacheKey (video_id language : Str) : Str :=
  video_id ++ ('_' :: language)

def cacheLookup : Cache → Str → Option (Transcript × Nat)
  | [], _ => none
  | (k', v) :: rest, k => if k' = k then some v else cacheLookup rest k

def cacheErase : Cache → Str → Cache
  | [], _ => []
  | (k', v) :: rest, k =>
      if k' = k then cacheErase rest k else (k', v) :: cacheErase rest k

/-- `get_cached_transcript`: return the entry if present and
`now - timestamp < CACHE_DURATION`; evict a stale entry (`del`) and
return `None` otherwise.  The clock is passed explicitly. -/
def get_cached_transcript (c : Cache) (now : Nat) (video_id language : Str) :
    Option Transcript × Cache :=
  match cacheLookup c (cacheKey video_id language) with
  | some (t, ts) =>
      if now - ts < CACHE_DURATION then (some t, c)
      else (none, cacheErase c (cacheKey video_id language))
  | none => (none, c)

/-- `cache_transcript`: insert or overwrite unconditionally, stamping the
current time. -/
def cache_transcript (c : Cache) (now : Nat) (video_id language : Str)
    (t : Transcript) : Cache :=
  (cacheKey video_id language, (t, now)) ::
    cacheErase c (cacheKey video_id language)

/-- The upstream library, as a deterministic oracle.  `listing n` is the
outcome of the `n`-th `YouTubeTranscriptApi.list_transcripts` attempt
(1-based; the source makes exactly one).  `fetchOf code` is the outcome of
`.fetch()` on the track with that language code; `translateOf src tgt` is
the outcome of `.translate(tgt).fetch()` on the track with code `src`. -/
structure Upstream where
  listing : Nat → Except PyErr Catalog
  fetchOf : Str → Except PyErr Transcript
  translateOf : Str → Str → Except PyErr Transcript

/-- `transcript_list.find_transcript([language])`: the first catalog track
(manual before generated, in listing order) whose code is `language`. -/
def find_transcript (cat : Catalog) (language : Str) : Option TranscriptTrack :=
  (cat.manual ++ cat.generated).find? (fun tr => tr.language_code == language)

/-- Execution trace of one handler run: cumulative `time.sleep` seconds,
number of `list_transcripts` calls, the `(source, target)` pairs of every
`.translate` invocation in order, and whether the run went past the cache
to the upstream stage at all. -/
structure RunLog where
  slept : Nat
  listAttempts : Nat
  translateCalls : List (Str × Str)
  upstreamFetched : Bool
deriving DecidableEq

/-- The HTTP outcome of the endpoint: a JSON body of segments on success,
or a status code with a `{"detail": ...}` diagnostic string. -/
inductive HttpResult where
  | ok (body : Transcript)
  | err (status : Nat) (detail : Str)
deriving DecidableEq

def invalidMsg : Str :=
  ("Invalid video ID format. Please provide a valid YouTube video ID (11 characters, alphanumeric with - and _)").data

def unavailableMsg : Str :=
  ("Video is unavailable. It might be private or doesn\x27t exist.").data

def rateLimitMsg : Str :=
  ("YouTube is rate limiting requests. Please try again in a few minutes.").data

def disabledMsg : Str :=
  ("Transcripts are disabled for this video. Please try a different video that has captions enabled.").data

def accessMsg (e : PyErr) : Str :=
  ("Could not access video transcripts: ").data ++ pyStr e

def couldNotMsg (e : PyErr) : Str :=
  ("Could not get or translate transcript: ").data ++ pyStr e

/-- `f"{t.language_code} ({t.language})"`. -/
def lang_entry (tr : TranscriptTrack) : Str :=
  tr.language_code ++ (" (").data ++ tr.language ++ (")").data

/-- The `available_langs` list built in the exhaustion branch: manual
entries then generated entries, in catalog order. -/
def available_langs (cat : Catalog) : List Str :=
  (cat.manual ++ cat.generated).map lang_entry

/-- Python's `sep.join(xs)`. -/
def joinSep (sep : Str) : List Str → Str
  | [] => []
  | [x] => x
  | x :: y :: ys => x ++ sep ++ joinSep sep (y :: ys)

/-- `', '.join(available_langs) if available_langs else 'none'`. -/
def joined_langs (cat : Catalog) : Str :=
  match available_langs cat with
  | [] => ("none").data
  | ls => joinSep ((", ").data) ls

def noTransMsg (language : Str) (joined : Str) : Str :=
  ("No transcripts available in ").data ++ language ++
    (". Available languages: ").data ++ joined

/-- The outer `except` clauses of the handler (lines 172-181 of the
source): `TranscriptsDisabled` gets its dedicated message; every other
exception — `HTTPException` values included, since `except Exception`
catches them — is wrapped as status 400 with
`f"Error processing request: {str(e)}"`. -/
def outer_catch (e : PyErr) : HttpResult :=
  match e with
  | .TranscriptsDisabled => .err 400 disabledMsg
  | e => .err 400 (("Error processing request: ").data ++ pyStr e)

/-- Lines 124-129: `find_transcript([language])` then `.fetch()`.  A
missing track raises `NoTranscriptFound`; a successful fetch caches under
the requested language (the stamp models `time.time()` after the
`RETRY_DELAY` sleep) and returns. -/
def direct_attempt (up : Upstream) (cat : Catalog) (c : Cache) (now : Nat)
    (clean language : Str) : Except PyErr (Transcript × Cache) :=
  match find_transcript cat language with
  | none => .error .NoTranscriptFound
  | some tr =>
      match up.fetchOf tr.language_code with
      | .ok result =>
          .ok (result, cache_transcript c (now + RETRY_DELAY) clean language result)
      | .error e => .error e

/-- Lines 132-138: `find_transcript(["en"])` then `.translate(language)`
and `.fetch()`.  Returns the transport outcome and the translate calls
made. -/
def english_attempt (up : Upstream) (cat : Catalog) (language : Str) :
    Except PyErr Transcript × List (Str × Str) :=
  match find_transcript cat (("en").data) with
  | none => (.error .NoTranscriptFound, [])
  | some tr =>
      (up.translateOf tr.language_code language, [(tr.language_code, language)])

/-- Lines 141-165: take the first manually-created track and translate it;
with no manual tracks, raise the `HTTPException` listing every catalog
language. -/
def manual_attempt (up : Upstream) (cat : Catalog) (c : Cache) (now : Nat)
    (clean language : Str) :
    Except PyErr (Transcript × Cache) × List (Str × Str) :=
  match cat.manual with
  | [] => (.error (.HTTPExc 400 (noTransMsg language (joined_langs cat))), [])
  | first :: _ =>
      match up.translateOf first.language_code language with
      | .ok result =>
          (.ok (result, cache_transcript c (now + RETRY_DELAY) clean language result),
           [(first.language_code, language)])
      | .error e => (.error e, [(first.language_code, language)])

/-- The resolution chain after a successful catalog listing (lines
124-170): direct match, else (on `NoTranscriptFound` only) the English
translation, else the first-manual translation, whose failures are
wrapped by the `except Exception` clause at line 166 into an
`HTTPException` with `f"Could not get or translate transcript: {str(e)}"`. -/
def resolve_after_listing (up : Upstream) (cat : Catalog) (c : Cache)
    (now : Nat) (clean language : Str) :
    Except PyErr (Transcript × Cache) × List (Str × Str) :=
  match direct_attempt up cat c now clean language with
  | .ok rc => (.ok rc, [])
  | .error .NoTranscriptFound =>
      match english_attempt up cat language with
      | (.ok result, t1) =>
          (.ok (result, cache_transcript c (now + RETRY_DELAY) clean language result),
           t1)
      | (.error _, t1) =>
          match manual_attempt up cat c now clean language with
          | (.ok rc, t2) => (.ok rc, t1 ++ t2)
          | (.error e, t2) =>
              (.error (.HTTPExc 400 (couldNotMsg e)), t1 ++ t2)
  | .error e => (.error e, [])

/-- Lines 106-122 then 124-170: the single `list_transcripts` call (the
source makes exactly one attempt, with no retry loop), its three `except`
clauses, then the resolution chain. -/
def list_and_resolve (up : Upstream) (c : Cache) (now : Nat)
    (clean language : Str) :
    Except PyErr (Transcript × Cache) × List (Str × Str) :=
  match up.listing 1 with
  | .error .VideoUnavailable => (.error (.HTTPExc 400 unavailableMsg), [])
  | .error .TooManyRequests => (.error (.HTTPExc 429 rateLimitMsg), [])
  | .error e => (.error (.HTTPExc 400 (accessMsg e)), [])
  | .ok cat => resolve_after_listing up cat c now clean language

def finish (step : Except PyErr (Transcript × Cache)) (c : Cache) :
    HttpResult × Cache :=
  match step with
  | .ok (r, c2) => (.ok r, c2)
  | .error e => (outer_catch e, c)

/-- The upstream stage of the handler: `time.sleep(RETRY_DELAY)` (logged
as slept seconds), one listing attempt, the resolution chain, and the
outer `except` clauses applied to whatever escapes. -/
def after_cache (up : Upstream) (c : Cache) (now : Nat)
    (clean language : Str) : HttpResult × Cache × RunLog :=
  let step := list_and_resolve up c now clean language
  let fin := finish step.1 c
  (fin.1, fin.2, ⟨RETRY_DELAY, 1, step.2, true⟩)

/-- The `GET /transcript/` handler `get_transcript` (lines 73-181):
normalize and validate the identifier, consult the cache (an empty cached
transcript is falsy in `if cached_transcript:` and does not short-
circuit), then the upstream stage.  The whole body runs inside the outer
`try`, so the invalid-identifier `HTTPException` is also re-wrapped by
`outer_catch`. -/
def get_transcript (up : Upstream) (c : Cache) (now : Nat)
    (video_id language : Str) : HttpResult × Cache × RunLog :=
  let clean := extract_video_id video_id
  if validate_video_id clean then
    let looked := get_cached_transcript c now clean language
    match looked.1 with
    | some t =>
        if t.isEmpty then after_cache up looked.2 now clean language
        else (.ok t, looked.2, ⟨0, 0, [], false⟩)
    | none => after_cache up looked.2 now clean language
  else
    (outer_catch (.HTTPExc 400 invalidMsg), c, ⟨0, 0, [], false⟩)

theorem cacheLookup_erase (c : Cache) (k : Str) :
    cacheLookup (cacheErase c k) k = none := by
  induction c with
  | nil => rfl
  | cons p rest ih =>
      rcases p with ⟨k', v⟩
      by_cases h : k' = k
      · simp [cacheErase, h, ih]
      · simp [cacheErase, h, cacheLookup, ih]

/-- A concrete transcript segment used by the concrete runs below. -/
def seg1 : TranscriptSegment := ⟨("hello").data, 0, 2⟩

def thTrack : TranscriptTrack := ⟨("Thai").data, ("th").data⟩

def enTrack : TranscriptTrack := ⟨("English").data, ("en").data⟩

def deTrack : TranscriptTrack := ⟨("German").data, ("de").data⟩

def catDirect : Catalog := ⟨[thTrack], []⟩

def catEnglish : Catalog := ⟨[enTrack], []⟩

def catGenOnly : Catalog := ⟨[], [deTrack]⟩

def catGenEnglish : Catalog := ⟨[], [enTrack]⟩

/-- A transport stub whose every call is rate-limited. -/
def stubRateLimited : Upstream :=
  ⟨fun _ => .error .TooManyRequests, fun _ => .error .TooManyRequests,
   fun _ _ => .error .TooManyRequests⟩

/-- A transport stub that is rate-limited on the first two listing
attempts and would succeed from the third on. -/
def stubRL2 : Upstream :=
  ⟨fun n => if n ≤ 2 then .error .TooManyRequests else .ok catDirect,
   fun _ => .ok [seg1], fun _ _ => .error (.Other [])⟩

/-- A stub with a direct Thai manual track; translation always fails. -/
def stubFetch : Upstream :=
  ⟨fun _ => .ok catDirect, fun _ => .ok [seg1], fun _ _ => .error (.Other [])⟩

/-- A stub with only an English manual track; translation succeeds. -/
def stubTranslate : Upstream :=
  ⟨fun _ => .ok catEnglish, fun _ => .error (.Other []), fun _ _ => .ok [seg1]⟩

/-- A stub with only a generated German track; all translation fails. -/
def stubGenOnly : Upstream :=
  ⟨fun _ => .ok catGenOnly, fun _ => .error (.Other []),
   fun _ _ => .error (.Other [])⟩

/-- A stub with only a generated English track; translation succeeds. -/
def stubGenEnglish : Upstream :=
  ⟨fun _ => .ok catGenEnglish, fun _ => .error (.Other []),
   fun _ _ => .ok [seg1]⟩

/-- Claim C1 (code_bug evidence): on a request whose catalog listing is
rate-limited, the handler returns HTTP status 400, not 429 — the
`HTTPException(429, ...)` raised for `TooManyRequests` is caught by the
outer `except Exception` clause and re-wrapped as a 400 response whose
detail embeds the rate-limit diagnostic. -/
theorem c1_rate_limited_listing_yields_400 :
    get_transcript stubRateLimited [] 0 (("PMtlIBtqNJo").data) (("th").data) =
      (.err 400 (("Error processing request: 429: YouTube is rate limiting requests. Please try again in a few minutes.").data),
       [], ⟨RETRY_DELAY, 1, [], true⟩) := by decide

/-- Claim C3, counterexample: Python's `$` anchor also matches just before
a trailing newline, so `validate("abcdefghijk\n")` is true although the
input has length 12 and contains a character outside `[0-9A-Za-z_-]` —
refuting the claimed iff. -/
theorem c3_counterexample_trailing_newline :
    validate_video_id (("abcdefghijk\n").data) = true ∧
    ¬ ((("abcdefghijk\n").data).length = 11 ∧
       ∀ ch ∈ (("abcdefghijk\n").data), isAllowedChar ch = true) := by decide

/-- Claim C3 as amended: `validate(x)` is true iff `x` is exactly 11
characters of `[0-9A-Za-z_-]`, or such an 11-character string followed by
one trailing newline (the `$`-anchor exception); the two quoted examples
hold. -/
theorem c3_amended_validate_iff :
    (∀ x : Str, validate_video_id x = true ↔
      ((x.length = 11 ∧ ∀ ch ∈ x, isAllowedChar ch = true) ∨
       (∃ y, x = y ++ ['\n'] ∧ y.length = 11 ∧
          ∀ ch ∈ y, isAllowedChar ch = true))) ∧
    validate_video_id (("PMtlIBtqNJo").data) = true ∧
    validate_video_id (("short").data) = false :=
  ⟨validate_iff, by decide, by decide⟩

/-- Claim C7: immediately after `put(id, lang, T)`, `get(id, lang)`
returns `T`; once the clock exceeds `CACHE_DURATION` past insertion,
`get` returns absent and the stale entry is evicted from the cache it
returns. -/
theorem c7_cache_roundtrip (c : Cache) (now later : Nat)
    (video_id language : Str) (t : Transcript)
    (hexp : CACHE_DURATION < later - now) :
    get_cached_transcript (cache_transcript c now video_id language t) now
        video_id language =
      (some t, cache_transcript c now video_id language t) ∧
    (get_cached_transcript (cache_transcript c now video_id language t) later
        video_id language).1 = none ∧
    cacheLookup
      (get_cached_transcript (cache_transcript c now video_id language t) later
        video_id language).2
      (cacheKey video_id language) = none := by
  have hlk : cacheLookup (cache_transcript c now video_id language t)
      (cacheKey video_id language) = some (t, now) := by
    simp [cache_transcript, cacheLookup]
  have hstale : ¬ (later - now < CACHE_DURATION) := by omega
  refine ⟨?_, ?_, ?_⟩
  · simp [get_cached_transcript, hlk, Nat.sub_self, CACHE_DURATION]
  · simp [get_cached_transcript, hlk, hstale]
  · simp [get_cached_transcript, hlk, hstale, cacheLookup_erase]

theorem c7_witness :
    get_cached_transcript
        (cache_transcript [] 0 (("PMtlIBtqNJo").data) (("th").data) [seg1]) 0
        (("PMtlIBtqNJo").data) (("th").data) =
      (some [seg1],
       cache_transcript [] 0 (("PMtlIBtqNJo").data) (("th").data) [seg1]) ∧
    (get_cached_transcript
        (cache_transcript [] 0 (("PMtlIBtqNJo").data) (("th").data) [seg1]) 3601
        (("PMtlIBtqNJo").data) (("th").data)).1 = none ∧
    cacheLookup
      (get_cached_transcript
        (cache_transcript [] 0 (("PMtlIBtqNJo").data) (("th").data) [seg1]) 3601
        (("PMtlIBtqNJo").data) (("th").data)).2
      (cacheKey (("PMtlIBtqNJo").data) (("th").data)) = none :=
  c7_cache_roundtrip [] 0 3601 (("PMtlIBtqNJo").data) (("th").data) [seg1]
    (by decide)

/-- Claim C8: `normalize` (that is, `extract_video_id`) is idempotent on
every input accepted by `validate_video_id`. -/
theorem c8_normalize_idempotent (x : Str)
    (hv : validate_video_id x = true) :
    extract_video_id (extract_video_id x) = extract_video_id x := by
  rcases (validate_iff x).mp hv with ⟨hlen, hall⟩ | ⟨y, hxy, hylen, hyall⟩
  · rw [extract_of_pure x hlen hall, extract_of_pure x hlen hall]
  · subst hxy
    rw [extract_of_newline y hylen hyall, extract_of_pure y hylen hyall]

theorem c8_witness :
    extract_video_id (extract_video_id (("PMtlIBtqNJo").data)) =
      extract_video_id (("PMtlIBtqNJo").data) :=
  c8_normalize_idempotent (("PMtlIBtqNJo").data) (by decide)

/-- Claim C2, counterexample: with a transport stub that is rate-limited
on the first two listing attempts and would succeed on the third, the
handler does not retry: it fails with a wrapped rate-limit error after a
single attempt, having slept only `RETRY_DELAY` (2 s), not the claimed
`RETRY_DELAY*1 + RETRY_DELAY*2` = 6 s followed by success. -/
theorem c2_counterexample_no_retry :
    (get_transcript stubRL2 [] 0 (("PMtlIBtqNJo").data) (("th").data)).1 =
      .err 400 (("Error processing request: 429: YouTube is rate limiting requests. Please try again in a few minutes.").data) ∧
    (get_transcript stubRL2 [] 0 (("PMtlIBtqNJo").data) (("th").data)).2.2 =
      ⟨RETRY_DELAY, 1, [], true⟩ := by decide

/-- Claim C2 as amended: the source has no retry loop.  On a cache miss
with a valid identifier the handler sleeps `RETRY_DELAY` seconds once,
unconditionally, makes exactly one catalog-listing attempt, and a
rate-limited listing surfaces immediately as a terminal error (wrapped to
status 400 by the outer `except Exception`), with no second attempt. -/
theorem c2_amended_single_attempt (up : Upstream) (c : Cache) (now : Nat)
    (video_id language : Str)
    (hvalid : validate_video_id (extract_video_id video_id) = true)
    (hmiss : (get_cached_transcript c now (extract_video_id video_id)
        language).1 = none)
    (hrl : up.listing 1 = .error .TooManyRequests) :
    (get_transcript up c now video_id language).2.2.listAttempts = 1 ∧
    (get_transcript up c now video_id language).2.2.slept = RETRY_DELAY ∧
    (get_transcript up c now video_id language).1 =
      .err 400 (("Error processing request: 429: YouTube is rate limiting requests. Please try again in a few minutes.").data) := by
  have hg : get_transcript up c now video_id language =
      after_cache up
        (get_cached_transcript c now (extract_video_id video_id) language).2
        now (extract_video_id video_id) language := by
    simp [get_transcript, hvalid, hmiss]
  rw [hg]
  refine ⟨rfl, rfl, ?_⟩
  show (finish (list_and_resolve up _ now (extract_video_id video_id)
      language).1 _).1 = _
  rw [list_and_resolve, hrl]
  rfl

theorem c2_amended_witness :
    (get_transcript stubRateLimited [] 0 (("PMtlIBtqNJo").data)
        (("th").data)).2.2.listAttempts = 1 ∧
    (get_transcript stubRateLimited [] 0 (("PMtlIBtqNJo").data)
        (("th").data)).2.2.slept = RETRY_DELAY ∧
    (get_transcript stubRateLimited [] 0 (("PMtlIBtqNJo").data)
        (("th").data)).1 =
      .err 400 (("Error processing request: 429: YouTube is rate limiting requests. Please try again in a few minutes.").data) :=
  c2_amended_single_attempt stubRateLimited [] 0 (("PMtlIBtqNJo").data)
    (("th").data) (by decide) (by decide) rfl

/-- Claim C4: when the catalog contains a track in the requested language
and its fetch succeeds, resolution returns that transcript with no
`.translate` call at all (the translate-call trace is empty), and the
returned cache holds the result under `(id, requestedLang)`. -/
theorem c4_direct_match (up : Upstream) (cat : Catalog) (c : Cache)
    (now : Nat) (clean language : Str) (tr : TranscriptTrack)
    (r : Transcript)
    (hfind : find_transcript cat language = some tr)
    (hfetch : up.fetchOf tr.language_code = .ok r) :
    resolve_after_listing up cat c now clean language =
      (.ok (r, cache_transcript c (now + RETRY_DELAY) clean language r), []) ∧
    cacheLookup (cache_transcript c (now + RETRY_DELAY) clean language r)
      (cacheKey clean language) = some (r, now + RETRY_DELAY) := by
  have hd : direct_attempt up cat c now clean language =
      .ok (r, cache_transcript c (now + RETRY_DELAY) clean language r) := by
    simp [direct_attempt, hfind, hfetch]
  constructor
  · simp [resolve_after_listing, hd]
  · simp [cache_transcript, cacheLookup]

theorem c4_witness :
    resolve_after_listing stubFetch catDirect [] 0 (("PMtlIBtqNJo").data)
        (("th").data) =
      (.ok ([seg1], cache_transcript [] (0 + RETRY_DELAY)
          (("PMtlIBtqNJo").data) (("th").data) [seg1]), []) ∧
    cacheLookup (cache_transcript [] (0 + RETRY_DELAY) (("PMtlIBtqNJo").data)
        (("th").data) [seg1])
      (cacheKey (("PMtlIBtqNJo").data) (("th").data)) =
      some ([seg1], 0 + RETRY_DELAY) :=
  c4_direct_match stubFetch catDirect [] 0 (("PMtlIBtqNJo").data)
    (("th").data) thTrack [seg1] rfl rfl

/-- Claim C5: when the requested language has no direct match, resolution
first translates from the track found for `"en"` and returns its result
on success; if the English attempt fails, it translates from the first
manually-created catalog entry and returns its result on success; both
outcomes are cached under `(id, requestedLang)`. -/
theorem c5_fallback_chain (up : Upstream) (cat : Catalog) (c : Cache)
    (now : Nat) (clean language : Str)
    (hmiss : find_transcript cat language = none) :
    (∀ tr r, find_transcript cat (("en").data) = some tr →
        up.translateOf tr.language_code language = .ok r →
        resolve_after_listing up cat c now clean language =
          (.ok (r, cache_transcript c (now + RETRY_DELAY) clean language r),
           [(tr.language_code, language)])) ∧
    (∀ e tr0 rest r, (english_attempt up cat language).1 = .error e →
        cat.manual = tr0 :: rest →
        up.translateOf tr0.language_code language = .ok r →
        resolve_after_listing up cat c now clean language =
          (.ok (r, cache_transcript c (now + RETRY_DELAY) clean language r),
           (english_attempt up cat language).2 ++
             [(tr0.language_code, language)])) := by
  have hd : direct_attempt up cat c now clean language =
      .error .NoTranscriptFound := by
    simp [direct_attempt, hmiss]
  constructor
  · intro tr r hen htr
    have he : english_attempt up cat language =
        (.ok r, [(tr.language_code, language)]) := by
      simp [english_attempt, hen, htr]
    simp [resolve_after_listing, hd, he]
  · intro e tr0 rest r henf hman htr
    rcases heq : english_attempt up cat language with ⟨res, t1⟩
    rw [heq] at henf
    simp at henf
    subst henf
    have hm : manual_attempt up cat c now clean language =
        (.ok (r, cache_transcript c (now + RETRY_DELAY) clean language r),
         [(tr0.language_code, language)]) := by
      simp [manual_attempt, hman, htr]
    simp [resolve_after_listing, hd, heq, hm]

theorem c5_witness :
    resolve_after_listing stubTranslate catEnglish [] 0
        (("PMtlIBtqNJo").data) (("th").data) =
      (.ok ([seg1], cache_transcript [] (0 + RETRY_DELAY)
          (("PMtlIBtqNJo").data) (("th").data) [seg1]),
       [((("en").data), (("th").data))]) :=
  (c5_fallback_chain stubTranslate catEnglish [] 0 (("PMtlIBtqNJo").data)
      (("th").data) rfl).1 enTrack [seg1] rfl rfl

theorem direct_attempt_ok (up : Upstream) (cat : Catalog) (c : Cache)
    (now : Nat) (clean language : Str) (rc : Transcript × Cache)
    (h : direct_attempt up cat c now clean language = .ok rc) :
    rc.2 = cache_transcript c (now + RETRY_DELAY) clean language rc.1 := by
  rw [direct_attempt] at h
  rcases hf : find_transcript cat language with _ | tr
  · rw [hf] at h; simp at h
  · rw [hf] at h
    rcases hft : up.fetchOf tr.language_code with e | res
    · simp [hft] at h
    · simp [hft] at h
      subst h
      rfl

theorem manual_attempt_ok (up : Upstream) (cat : Catalog) (c : Cache)
    (now : Nat) (clean language : Str) (rc : Transcript × Cache)
    (t2 : List (Str × Str))
    (h : manual_attempt up cat c now clean language = (.ok rc, t2)) :
    rc.2 = cache_transcript c (now + RETRY_DELAY) clean language rc.1 := by
  rw [manual_attempt] at h
  rcases hman : cat.manual with _ | ⟨first, restm⟩
  · rw [hman] at h; simp at h
  · rw [hman] at h
    rcases htr : up.translateOf first.language_code language with e | res
    · simp [htr] at h
    · simp [htr] at h
      obtain ⟨hrc, _⟩ := h
      rw [← hrc]

/-- Claim C9: however a fresh resolution succeeds (direct, via-English,
or via-first-manual), the cache it returns holds the result under the
key built from the identifier and the originally requested language. -/
theorem c9_cache_key_requested_language (up : Upstream) (cat : Catalog)
    (c : Cache) (now : Nat) (clean language : Str) (r : Transcript)
    (c2 : Cache) (tc : List (Str × Str))
    (h : resolve_after_listing up cat c now clean language =
      (.ok (r, c2), tc)) :
    cacheLookup c2 (cacheKey clean language) = some (r, now + RETRY_DELAY) := by
  rw [resolve_after_listing] at h
  rcases hd : direct_attempt up cat c now clean language with e | rc
  · cases e <;> rw [hd] at h
    case NoTranscriptFound =>
      rcases heq : english_attempt up cat language with ⟨res, t1⟩
      rw [heq] at h
      rcases res with e1 | r1
      · rcases hm : manual_attempt up cat c now clean language with ⟨res2, t2⟩
        rw [hm] at h
        rcases res2 with e2 | rc2
        · simp at h
        · simp at h
          obtain ⟨hrc, htc⟩ := h
          have h2 := manual_attempt_ok up cat c now clean language rc2 t2 hm
          rw [hrc] at h2
          simp at h2
          rw [h2]
          simp [cache_transcript, cacheLookup]
      · simp at h
        obtain ⟨⟨hr1, hc2⟩, htc⟩ := h
        subst hr1
        rw [← hc2]
        simp [cache_transcript, cacheLookup]
    all_goals simp at h
  · rw [hd] at h
    simp at h
    obtain ⟨hrc, htc⟩ := h
    have h2 := direct_attempt_ok up cat c now clean language rc hd
    rw [hrc] at h2
    simp at h2
    rw [h2]
    simp [cache_transcript, cacheLookup]

theorem c9_witness :
    cacheLookup (cache_transcript [] (0 + RETRY_DELAY) (("PMtlIBtqNJo").data)
        (("th").data) [seg1])
      (cacheKey (("PMtlIBtqNJo").data) (("th").data)) =
      some ([seg1], 0 + RETRY_DELAY) :=
  c9_cache_key_requested_language stubFetch catDirect [] 0
    (("PMtlIBtqNJo").data) (("th").data) [seg1]
    (cache_transcript [] (0 + RETRY_DELAY) (("PMtlIBtqNJo").data)
      (("th").data) [seg1]) [] rfl

/-- Claim C10: an empty transcript cached fresh under `(id, lang)` does
not short-circuit the handler — `if cached_transcript:` is false for an
empty list, so the run proceeds to the upstream stage. -/
theorem c10_empty_cached_not_hit (up : Upstream) (c : Cache) (now ts : Nat)
    (video_id language : Str)
    (hvalid : validate_video_id (extract_video_id video_id) = true)
    (hcached : cacheLookup c (cacheKey (extract_video_id video_id) language) =
      some ([], ts))
    (hfresh : now - ts < CACHE_DURATION) :
    get_transcript up c now video_id language =
      after_cache up c now (extract_video_id video_id) language ∧
    (get_transcript up c now video_id language).2.2.upstreamFetched = true := by
  have hlook : get_cached_transcript c now (extract_video_id video_id)
      language = (some [], c) := by
    simp [get_cached_transcript, hcached, hfresh]
  have hmain : get_transcript up c now video_id language =
      after_cache up c now (extract_video_id video_id) language := by
    simp [get_transcript, hvalid, hlook]
  exact ⟨hmain, by rw [hmain]; rfl⟩

def cEmptyCached : Cache :=
  [(cacheKey (("PMtlIBtqNJo").data) (("th").data), ([], 0))]

theorem c10_witness :
    get_transcript stubFetch cEmptyCached 5 (("PMtlIBtqNJo").data)
        (("th").data) =
      after_cache stubFetch cEmptyCached 5
        (extract_video_id (("PMtlIBtqNJo").data)) (("th").data) ∧
    (get_transcript stubFetch cEmptyCached 5 (("PMtlIBtqNJo").data)
        (("th").data)).2.2.upstreamFetched = true :=
  c10_empty_cached_not_hit stubFetch cEmptyCached 5 0 (("PMtlIBtqNJo").data)
    (("th").data) (by decide) (by decide) (by decide)

theorem infix_extend_left (s : Str) {l t : Str} (h : List.IsInfix l t) :
    List.IsInfix l (s ++ t) := by
  obtain ⟨u, v, huv⟩ := h
  exact ⟨s ++ u, v, by rw [← huv]; simp⟩

theorem mem_infix_joinSep (sep : Str) (ls : List Str) (x : Str)
    (hx : x ∈ ls) : List.IsInfix x (joinSep sep ls) := by
  induction ls with
  | nil => simp at hx
  | cons a rest ih =>
      rcases rest with _ | ⟨b, brest⟩
      · simp at hx
        subst hx
        exact List.infix_refl x
      · rcases List.mem_cons.mp hx with h1 | h2
        · subst h1
          exact ⟨[], sep ++ joinSep sep (b :: brest), by simp [joinSep]⟩
        · have h3 := infix_extend_left sep (ih h2)
          have h4 := infix_extend_left a h3
          simpa [joinSep, List.append_assoc] using h4

/-- Claim C6, counterexample: with zero manually-created entries, no
requested-language match, but a generated English track whose translation
succeeds, resolution succeeds instead of failing — the claimed
unconditional `ResolutionFailed` does not hold. -/
theorem c6_counterexample_generated_english :
    catGenEnglish.manual = [] ∧
    find_transcript catGenEnglish (("th").data) = none ∧
    (resolve_after_listing stubGenEnglish catGenEnglish [] 0
        (("PMtlIBtqNJo").data) (("th").data)).1 =
      .ok ([seg1], cache_transcript [] (0 + RETRY_DELAY)
        (("PMtlIBtqNJo").data) (("th").data) [seg1]) :=
  ⟨rfl, rfl, rfl⟩

/-- Claim C6 as amended: when the catalog has zero manually-created
entries, no requested-language match, and the English-translation
fallback also fails, resolution fails with a 400 error whose diagnostic
contains the `code (display name)` rendering of every generated-track
entry of the catalog. -/
theorem c6_amended_exhaustion (up : Upstream) (cat : Catalog) (c : Cache)
    (now : Nat) (clean language : Str)
    (hman : cat.manual = [])
    (hmiss : find_transcript cat language = none)
    (hen : ∃ e, (english_attempt up cat language).1 = .error e) :
    (resolve_after_listing up cat c now clean language).1 =
      .error (.HTTPExc 400
        (couldNotMsg (.HTTPExc 400 (noTransMsg language (joined_langs cat))))) ∧
    ∀ tr ∈ cat.generated,
      List.IsInfix (lang_entry tr)
        (couldNotMsg (.HTTPExc 400 (noTransMsg language (joined_langs cat)))) := by
  obtain ⟨e0, he⟩ := hen
  have hd : direct_attempt up cat c now clean language =
      .error .NoTranscriptFound := by simp [direct_attempt, hmiss]
  have hm : manual_attempt up cat c now clean language =
      (.error (.HTTPExc 400 (noTransMsg language (joined_langs cat))), []) := by
    simp [manual_attempt, hman]
  constructor
  · rcases heq : english_attempt up cat language with ⟨res, t1⟩
    rw [heq] at he
    simp at he
    subst he
    simp [resolve_after_listing, hd, heq, hm]
  · intro tr htr
    have hmem : lang_entry tr ∈ available_langs cat := by
      simp [available_langs, hman]
      exact ⟨tr, htr, rfl⟩
    rcases hl : available_langs cat with _ | ⟨a, rest⟩
    · rw [hl] at hmem; simp at hmem
    · have h1 := mem_infix_joinSep ((", ").data) (a :: rest) (lang_entry tr)
        (hl ▸ hmem)
      have h2 : joined_langs cat = joinSep ((", ").data) (a :: rest) := by
        rw [joined_langs, hl]
      have h3 : List.IsInfix (lang_entry tr) (joined_langs cat) := by
        rw [h2]; exact h1
      simp only [couldNotMsg, pyStr, noTransMsg]
      exact infix_extend_left _ (infix_extend_left _ (infix_extend_left _ h3))

theorem c6_amended_witness :
    (resolve_after_listing stubGenOnly catGenOnly [] 0
        (("PMtlIBtqNJo").data) (("th").data)).1 =
      .error (.HTTPExc 400
        (couldNotMsg (.HTTPExc 400
          (noTransMsg (("th").data) (joined_langs catGenOnly))))) ∧
    ∀ tr ∈ catGenOnly.generated,
      List.IsInfix (lang_entry tr)
        (couldNotMsg (.HTTPExc 400
          (noTransMsg (("th").data) (joined_langs catGenOnly)))) :=
  c6_amended_exhaustion stubGenOnly catGenOnly [] 0 (("PMtlIBtqNJo").data)
    (("th").data) rfl rfl ⟨.NoTranscriptFound, rfl⟩

end YTA
